import Mathlib

/-!
Shallow embedding of the HideThis rule-reconciliation engine
(content script `selector.js`, `StorageManager`, `DomAttrsRemover`,
`CSSInvalidator`) and proofs about the frozen specification claims.

DOM elements are modelled as records of the fields the code reads
(tag name, id, className string, attribute list, inline `style.display`,
and the stylesheet-derived display used by `getComputedStyle`).
Platform services (CSS selector parsing, `new URL`) are modelled as
explicit oracle parameters, since they are not code of this repository.
-/

/-- A DOM element, restricted to the state the engine reads and writes.
`styleDisplay` is the inline `style.display` (empty string = unset);
`cssDisplay` is the display the stylesheet would give the element, so
`getComputedStyle(e).display` resolves to `styleDisplay` when that is
set and to `cssDisplay` otherwise. -/
structure Elem where
  tagName : String
  id : String
  className : String
  attrs : List (String × String)
  styleDisplay : String
  cssDisplay : String
deriving Repr, DecidableEq

/-- `element.getAttribute(n)`: value of the first attribute named `n`. -/
def getAttr (e : Elem) (n : String) : Option String :=
  (e.attrs.find? (fun p => p.1 == n)).map (fun p => p.2)

/-- `element.hasAttribute(n)`. -/
def hasAttr (e : Elem) (n : String) : Bool :=
  e.attrs.any (fun p => p.1 == n)

/-- `setAttribute` on an attribute list: replace the value when the name
is present, append otherwise. -/
def setAttrList (l : List (String × String)) (n v : String) : List (String × String) :=
  if l.any (fun p => p.1 == n) then
    l.map (fun p => if p.1 == n then (n, v) else p)
  else
    l ++ [(n, v)]

/-- `element.setAttribute(n, v)`. -/
def setAttr (e : Elem) (n v : String) : Elem :=
  { e with attrs := setAttrList e.attrs n v }

/-- `element.removeAttribute(n)`. -/
def removeAttr (e : Elem) (n : String) : Elem :=
  { e with attrs := e.attrs.filter (fun p => !(p.1 == n)) }

/-- `getComputedStyle(element).display` in this model: the inline value
when set, else the stylesheet value. -/
def computedDisplay (e : Elem) : String :=
  if e.styleDisplay ≠ "" then e.styleDisplay else e.cssDisplay

/-- `selector.js` `hideElementDirectly(element)` (lines 1152-1163):
`originalDisplay = element.style.display || getComputedStyle(element).display`,
written unconditionally into `data-hidethis-original-display`; then
`style.display = 'none'` and the `data-hidethis-hidden` tag.
(The `this.hiddenElements.add(element)` bookkeeping set is element-external
and does not affect the DOM state this claim is about.) -/
def hideElementDirectly (e : Elem) : Elem :=
  let originalDisplay := if e.styleDisplay ≠ "" then e.styleDisplay else computedDisplay e
  let e1 := setAttr e "data-hidethis-original-display" originalDisplay
  let e2 := { e1 with styleDisplay := "none" }
  setAttr e2 "data-hidethis-hidden" "true"

/-- `selector.js` `showElement(element)` DOM part (lines 1165-1177):
restore the recorded display unless it is missing or `'none'`, then
drop both marker attributes. -/
def showElement (e : Elem) : Elem :=
  let originalDisplay := getAttr e "data-hidethis-original-display"
  let e1 :=
    match originalDisplay with
    | some d => if d ≠ "" ∧ d ≠ "none" then { e with styleDisplay := d }
                else { e with styleDisplay := "" }
    | none => { e with styleDisplay := "" }
  let e2 := removeAttr e1 "data-hidethis-hidden"
  removeAttr e2 "data-hidethis-original-display"

section AttrLemmas

theorem find?_cons_pos {α : Type} (q : α → Bool) (a : α) (l : List α)
    (h : q a = true) : (a :: l).find? q = some a := by
  simp [List.find?, h]

theorem find?_cons_neg {α : Type} (q : α → Bool) (a : α) (l : List α)
    (h : q a = false) : (a :: l).find? q = l.find? q := by
  simp [List.find?, h]

theorem find?_replace_same {β : Type} (l : List (String × β)) (n : String) (v : β)
    (h : l.any (fun p => p.1 == n) = true) :
    (l.map (fun p => if p.1 == n then (n, v) else p)).find? (fun p => p.1 == n)
      = some (n, v) := by
  induction l with
  | nil => simp at h
  | cons p l ih =>
    by_cases hp : (p.1 == n) = true
    · rw [List.map_cons, if_pos hp,
        find?_cons_pos (fun (q : String × β) => q.1 == n) _ _ (by simp)]
    · simp only [List.any_cons, hp, Bool.false_or] at h
      rw [List.map_cons, if_neg hp,
        find?_cons_neg (fun (q : String × β) => q.1 == n) _ _ (by simpa using hp)]
      exact ih h

theorem find?_append_single_same {β : Type} (l : List (String × β)) (n : String) (v : β)
    (h : l.any (fun p => p.1 == n) = false) :
    (l ++ [(n, v)]).find? (fun p => p.1 == n) = some (n, v) := by
  induction l with
  | nil =>
    rw [List.nil_append, find?_cons_pos (fun (q : String × β) => q.1 == n) _ _ (by simp)]
  | cons p l ih =>
    simp only [List.any_cons, Bool.or_eq_false_iff] at h
    rw [List.cons_append, find?_cons_neg (fun (q : String × β) => q.1 == n) _ _ h.1]
    exact ih h.2

theorem find?_replace_other {β : Type} (l : List (String × β)) (n : String) (v : β) (m : String)
    (hnm : (n == m) = false) :
    (l.map (fun p => if p.1 == n then (n, v) else p)).find? (fun p => p.1 == m)
      = l.find? (fun p => p.1 == m) := by
  induction l with
  | nil => simp
  | cons p l ih =>
    by_cases hp : (p.1 == n) = true
    · have hp1 : p.1 = n := by simpa using hp
      have hpm : (p.1 == m) = false := by rw [hp1]; exact hnm
      rw [List.map_cons, if_pos hp,
        find?_cons_neg (fun (q : String × β) => q.1 == m) _ _ (by simpa using hnm),
        find?_cons_neg (fun (q : String × β) => q.1 == m) _ _ hpm]
      exact ih
    · rw [List.map_cons, if_neg hp]
      by_cases hm : (p.1 == m) = true
      · rw [find?_cons_pos (fun (q : String × β) => q.1 == m) _ _ hm,
          find?_cons_pos (fun (q : String × β) => q.1 == m) _ _ hm]
      · simp only [Bool.not_eq_true] at hm
        rw [find?_cons_neg (fun (q : String × β) => q.1 == m) _ _ hm,
          find?_cons_neg (fun (q : String × β) => q.1 == m) _ _ hm]
        exact ih

theorem find?_append_single_other {β : Type} (l : List (String × β)) (n : String) (v : β)
    (m : String) (hnm : (n == m) = false) :
    (l ++ [(n, v)]).find? (fun p => p.1 == m) = l.find? (fun p => p.1 == m) := by
  induction l with
  | nil =>
    rw [List.nil_append,
      find?_cons_neg (fun (q : String × β) => q.1 == m) _ _ (by simpa using hnm)]
  | cons p l ih =>
    by_cases hm : (p.1 == m) = true
    · rw [List.cons_append, find?_cons_pos (fun (q : String × β) => q.1 == m) _ _ hm,
        find?_cons_pos (fun (q : String × β) => q.1 == m) _ _ hm]
    · simp only [Bool.not_eq_true] at hm
      rw [List.cons_append, find?_cons_neg (fun (q : String × β) => q.1 == m) _ _ hm,
        find?_cons_neg (fun (q : String × β) => q.1 == m) _ _ hm]
      exact ih

theorem getAttr_setAttr_same (e : Elem) (n v : String) :
    getAttr (setAttr e n v) n = some v := by
  simp only [getAttr, setAttr, setAttrList]
  by_cases h : e.attrs.any (fun p => p.1 == n)
  · rw [if_pos h, find?_replace_same e.attrs n v h]
    rfl
  · simp only [Bool.not_eq_true] at h
    rw [if_neg (by simp [h]), find?_append_single_same e.attrs n v h]
    rfl

theorem getAttr_setAttr_other (e : Elem) (n v m : String) (hnm : (n == m) = false) :
    getAttr (setAttr e n v) m = getAttr e m := by
  simp only [getAttr, setAttr, setAttrList]
  by_cases h : e.attrs.any (fun p => p.1 == n)
  · rw [if_pos h, find?_replace_other e.attrs n v m hnm]
  · simp only [Bool.not_eq_true] at h
    rw [if_neg (by simp [h]), find?_append_single_other e.attrs n v m hnm]

end AttrLemmas

theorem getAttr_styleUpdate (e : Elem) (s n : String) :
    getAttr { e with styleDisplay := s } n = getAttr e n := rfl

theorem styleDisplay_setAttr (e : Elem) (n v : String) :
    (setAttr e n v).styleDisplay = e.styleDisplay := rfl

theorem hideElementDirectly_styleDisplay (e : Elem) :
    (hideElementDirectly e).styleDisplay = "none" := rfl

/-- Concrete element for the C1 counterexample: no inline display, CSS
display `block`, no attributes yet. -/
def elemC1 : Elem :=
  { tagName := "DIV", id := "", className := "", attrs := [],
    styleDisplay := "", cssDisplay := "block" }

/-- Claim C1 (counterexample): applying `hideElementDirectly` twice does
NOT leave the `data-hidethis-original-display` record at the value
captured before the first application. On an element whose display was
`block`, the first application records `block`, but the second
application overwrites the record with `none` (the code writes the
marker unconditionally, and at that point `element.style.display` is
already `none`), so the DOM state after two applications differs from
the state after one. -/
theorem claim_C1_counterexample :
    getAttr (hideElementDirectly elemC1) "data-hidethis-original-display"
        = some "block" ∧
    getAttr (hideElementDirectly (hideElementDirectly elemC1))
        "data-hidethis-original-display" = some "none" ∧
    hideElementDirectly (hideElementDirectly elemC1) ≠ hideElementDirectly elemC1 := by
  refine ⟨rfl, rfl, ?_⟩
  decide

/-- Claim C1 (amended): applying `hideElementDirectly` twice yields
`display:'none'` and the `data-hidethis-hidden` tag exactly as a single
application does, but the original-display marker attribute is
overwritten: after the second application it holds `"none"`, while every
other attribute agrees with the single-application state. -/
theorem claim_C1_amended (e : Elem) :
    (hideElementDirectly (hideElementDirectly e)).styleDisplay = "none" ∧
    getAttr (hideElementDirectly (hideElementDirectly e)) "data-hidethis-hidden"
      = some "true" ∧
    ∀ n : String,
      getAttr (hideElementDirectly (hideElementDirectly e)) n =
        if n = "data-hidethis-original-display" then some "none"
        else getAttr (hideElementDirectly e) n := by
  have key : hideElementDirectly (hideElementDirectly e)
      = setAttr { setAttr (hideElementDirectly e)
            "data-hidethis-original-display" "none"
          with styleDisplay := "none" } "data-hidethis-hidden" "true" := rfl
  refine ⟨rfl, ?_, ?_⟩
  · rw [key]; exact getAttr_setAttr_same _ _ _
  · intro n
    rw [key]
    by_cases hhid : n = "data-hidethis-hidden"
    · subst hhid
      rw [getAttr_setAttr_same]
      rw [if_neg (by decide)]
      have : hideElementDirectly e
          = setAttr { setAttr e "data-hidethis-original-display"
                (if e.styleDisplay ≠ "" then e.styleDisplay else computedDisplay e)
              with styleDisplay := "none" } "data-hidethis-hidden" "true" := rfl
      rw [this, getAttr_setAttr_same]
    · by_cases horig : n = "data-hidethis-original-display"
      · subst horig
        rw [getAttr_setAttr_other _ _ _ _ (by decide), getAttr_styleUpdate,
          getAttr_setAttr_same, if_pos rfl]
      · have hb1 : (("data-hidethis-hidden" : String) == n) = false := by
          simp [BEq.beq]
          exact fun hc => hhid hc.symm
        have hb2 : (("data-hidethis-original-display" : String) == n) = false := by
          simp [BEq.beq]
          exact fun hc => horig hc.symm
        rw [getAttr_setAttr_other _ _ _ _ hb1, getAttr_styleUpdate,
          getAttr_setAttr_other _ _ _ _ hb2, if_neg horig]

/-! JavaScript string primitives, modelled over the character list so
that every operation reduces in the kernel. These mirror the built-in
`String.prototype` methods the content script uses. -/

/-- Whitespace as consumed by `String.prototype.trim` (the characters
relevant to class attribute values). -/
def jsIsWS (c : Char) : Bool := c == ' ' || c == '\t' || c == '\n' || c == '\r'

def trimChars (l : List Char) : List Char :=
  ((l.dropWhile jsIsWS).reverse.dropWhile jsIsWS).reverse

/-- `s.trim()`. -/
def jsTrim (s : String) : String := ⟨trimChars s.data⟩

def splitChars (sep : Char) : List Char → List Char → List (List Char)
  | [], cur => [cur.reverse]
  | c :: rest, cur =>
    if c == sep then cur.reverse :: splitChars sep rest []
    else splitChars sep rest (c :: cur)

/-- `s.split(sep)` for a single-character separator: like JavaScript,
adjacent separators produce empty components. -/
def jsSplit (s : String) (sep : Char) : List String :=
  (splitChars sep s.data []).map (fun l => ⟨l⟩)

/-- `s.startsWith(pre)`. -/
def jsStartsWith (s pre : String) : Bool := pre.data.isPrefixOf s.data

/-- `s.endsWith(suf)`. -/
def jsEndsWith (s suf : String) : Bool := suf.data.isSuffixOf s.data

def charLower (c : Char) : Char :=
  if c.toNat ≥ 65 && c.toNat ≤ 90 then Char.ofNat (c.toNat + 32) else c

/-- `s.toLowerCase()` (ASCII range, which covers tag names). -/
def jsToLower (s : String) : String := ⟨s.data.map charLower⟩

/-- `s.substring(n)` / taking the rest of the string after `n` characters. -/
def jsDrop (s : String) (n : Nat) : String := ⟨s.data.drop n⟩

/-- The class-list computation shared by `generateElementSelector` and
`generateCSSSelectorsForElement` (`selector.js` lines 1122-1124 and
929-932): split `className` on spaces, keep the classes that are
non-blank and not the extension's own `hidethis-` classes. An empty
`className` is falsy, yielding no classes. -/
def classListOf (className : String) : List String :=
  if className ≠ "" then
    (jsSplit className ' ').filter
      (fun cls => (jsTrim cls != "") && !(jsStartsWith cls "hidethis-"))
  else []

/-- `selector.js` `generateElementSelector(element)` (lines 1117-1131):
`#id` when the element has an id, else the joined class form, else the
lower-cased tag name. Note: no attribute fallback exists here. -/
def generateElementSelector (e : Elem) : String :=
  if e.id ≠ "" then "#" ++ e.id
  else
    let classes := classListOf e.className
    if classes.length > 0 then "." ++ String.intercalate "." classes
    else jsToLower e.tagName

/-- The attribute allow-list of `generateCSSSelectorsForElement`
(`selector.js` line 942). -/
def usefulAttributes : List String :=
  ["data-testid", "data-id", "data-component", "role", "aria-label"]

/-- The attribute-selector fallback loop of
`generateCSSSelectorsForElement` (lines 944-951): one `[attr="value"]`
selector per allow-listed attribute that is present with a non-empty
value. -/
def attrSelectorsFor (e : Elem) : List String :=
  usefulAttributes.filterMap (fun a =>
    match getAttr e a with
    | some v => if v ≠ "" then some ("[" ++ a ++ "=\"" ++ v ++ "\"]") else none
    | none => none)

/-- `selector.js` `generateCSSSelectorsForElement(element)` (lines
920-955): the id selector (when present) plus one `.c` selector per
non-extension class; only when both lists are empty, the allow-listed
attribute selectors. The bare tag name is never produced here. -/
def generateCSSSelectorsForElement (e : Elem) : List String :=
  let s1 : List String := if e.id ≠ "" then ["#" ++ e.id] else []
  let s2 := s1 ++ (classListOf e.className).map (fun c => "." ++ c)
  if s2 = [] then attrSelectorsFor e else s2

/-- Concrete element for the C2 counterexample: no id, no classes, only
a `data-testid` attribute. -/
def elemC2 : Elem :=
  { tagName := "DIV", id := "", className := "",
    attrs := [("data-testid", "x")], styleDisplay := "", cssDisplay := "block" }

/-- Claim C2 (counterexample): on an element with neither id nor classes
but with a `data-testid`, the persisted-rule selector generator
`generateElementSelector` returns the bare tag name `"div"`, not the
claimed attribute form `[data-testid="x"]`. -/
theorem claim_C2_counterexample :
    hasAttr elemC2 "data-testid" = true ∧
    elemC2.id = "" ∧ classListOf elemC2.className = [] ∧
    generateElementSelector elemC2 = "div" ∧
    generateElementSelector elemC2 ≠ "[data-testid=\"x\"]" := by
  refine ⟨rfl, rfl, by decide, by decide, by decide⟩

/-- Claim C2 (amended): `generateElementSelector` follows the priority
id, then non-extension classes, then the bare lower-cased tag name, and
has no attribute fallback; the `[attr="value"]` allow-list fallback
exists only in the candidate-list generator
`generateCSSSelectorsForElement`, which produces it exactly when the
element has neither an id nor non-extension classes. -/
theorem claim_C2_amended (e : Elem) :
    (e.id ≠ "" → generateElementSelector e = "#" ++ e.id) ∧
    (e.id = "" → classListOf e.className ≠ [] →
      generateElementSelector e
        = "." ++ String.intercalate "." (classListOf e.className)) ∧
    (e.id = "" → classListOf e.className = [] →
      generateElementSelector e = jsToLower e.tagName) ∧
    (e.id = "" → classListOf e.className = [] →
      generateCSSSelectorsForElement e = attrSelectorsFor e) := by
  refine ⟨?_, ?_, ?_, ?_⟩
  · intro h
    simp [generateElementSelector, h]
  · intro h hc
    have hlen : (classListOf e.className).length > 0 :=
      List.length_pos.mpr hc
    simp [generateElementSelector, h, hlen]
  · intro h hc
    simp [generateElementSelector, h, hc]
  · intro h hc
    simp [generateCSSSelectorsForElement, h, hc]

/-- Witness for C2 (amended), at the concrete `data-testid`-only
element: the rule selector is the tag name and the candidate list is the
attribute form. -/
theorem claim_C2_witness :
    elemC2.id = "" ∧ classListOf elemC2.className = [] ∧
    generateElementSelector elemC2 = "div" ∧
    generateCSSSelectorsForElement elemC2 = ["[data-testid=\"x\"]"] := by
  refine ⟨rfl, by decide, ?_, ?_⟩
  · rw [(claim_C2_amended elemC2).2.2.1 rfl (by decide)]
    decide
  · rw [(claim_C2_amended elemC2).2.2.2 rfl (by decide)]
    decide

/-! Association-list model of a JavaScript `Map` keyed by strings
(replace-in-place on `set`, insertion order preserved), shared by the
storage caches. -/

def jsMapGet {β : Type} (st : List (String × β)) (d : String) : Option β :=
  (st.find? (fun p => p.1 == d)).map (fun p => p.2)

def jsMapSet {β : Type} (st : List (String × β)) (d : String) (v : β) :
    List (String × β) :=
  if st.any (fun p => p.1 == d) then
    st.map (fun p => if p.1 == d then (d, v) else p)
  else
    st ++ [(d, v)]

theorem jsMapGet_set_same {β : Type} (st : List (String × β)) (d : String) (v : β) :
    jsMapGet (jsMapSet st d v) d = some v := by
  simp only [jsMapGet, jsMapSet]
  by_cases h : st.any (fun p => p.1 == d)
  · rw [if_pos h, find?_replace_same st d v h]
    rfl
  · simp only [Bool.not_eq_true] at h
    rw [if_neg (by simp [h]), find?_append_single_same st d v h]
    rfl

theorem jsMapGet_set_other {β : Type} (st : List (String × β)) (d : String) (v : β)
    (m : String) (hnm : (d == m) = false) :
    jsMapGet (jsMapSet st d v) m = jsMapGet st m := by
  simp only [jsMapGet, jsMapSet]
  by_cases h : st.any (fun p => p.1 == d)
  · rw [if_pos h, find?_replace_other st d v m hnm]
  · simp only [Bool.not_eq_true] at h
    rw [if_neg (by simp [h]), find?_append_single_other st d v m hnm]

/-- `new URL(url).hostname` is a platform service, not repository code:
it is passed in as an oracle `parseHost`, returning `none` exactly when
the `URL` constructor would throw. -/
def getCurrentDomain (parseHost : String → Option String) (url : String) : String :=
  match parseHost url with
  | some h => h
  | none => "unknown"

namespace P6

/-- A `removedElements` entry as built by
`DomAttrsRemover.storeRemovedElement` (`part_002` lines 277-282). -/
structure Removal where
  selector : String
  rtype : String
  count : Nat
  timestamp : Nat
deriving Repr, DecidableEq

/-- The per-domain cache value of the `part_006` `StorageManager`: its
`loadFromStorage`, `getDomainDataSync`, `getDomainData` and
`saveDomainData` all construct objects with exactly the fields `hidden`
and `removedElements` — never `invalidatedCSS`. -/
structure DomainData where
  hidden : List String
  removedElements : List Removal
deriving Repr, DecidableEq

/-- The in-memory cache `Map` of the `part_006` `StorageManager`. -/
def Store := List (String × DomainData)

instance : DecidableEq Store := by
  unfold Store
  infer_instance

def emptyDomainData : DomainData := ⟨[], []⟩

/-- `getDomainDataSync(domain)` (`part_006` lines 76-84): create an
empty `{hidden: [], removedElements: []}` entry when missing, return
the entry (and the possibly-extended cache). -/
def getDomainDataSync (st : Store) (d : String) : DomainData × Store :=
  match jsMapGet st d with
  | some v => (v, st)
  | none => (emptyDomainData, jsMapSet st d emptyDomainData)

/-- `getDomainData(domain)` (`part_006` lines 315-329): same
create-if-missing behaviour, returning a fresh object holding copies of
the `hidden` and `removedElements` arrays — and no other field. -/
def getDomainData (st : Store) (d : String) : DomainData × Store :=
  getDomainDataSync st d

/-- `addHiddenElement` cache update (`part_006` lines 104-115), after
the domain has been resolved: push the selector only when
`hidden.includes(selector)` is false. -/
def addHiddenCore (st : Store) (d sel : String) : Store :=
  let r := getDomainDataSync st d
  if r.1.hidden.contains sel then r.2
  else jsMapSet r.2 d { r.1 with hidden := r.1.hidden ++ [sel] }

/-- `addHiddenElement(selector, url)` (`part_006` lines 104-115):
resolve the domain with `getCurrentDomain(url)`, then do the set-add. -/
def addHiddenElement (parseHost : String → Option String) (st : Store)
    (sel url : String) : Store :=
  addHiddenCore st (getCurrentDomain parseHost url) sel

/-- `saveDomainData(domain, data)` (`part_006` lines 298-308):
`cache.set(domain, {hidden: data.hidden || [], removedElements:
data.removedElements || []})`. -/
def saveDomainData (st : Store) (d : String) (data : DomainData) : Store :=
  jsMapSet st d data

/-- The JavaScript array values a `part_006` domain-data object can hold
in one of its fields. -/
inductive JsArr where
  | strs (l : List String)
  | removals (l : List Removal)
deriving Repr, DecidableEq

/-- The object literal returned by `getDomainData` (`part_006` lines
325-328), viewed as a field map: it has exactly the keys `hidden` and
`removedElements`. -/
def getDomainDataObj (st : Store) (d : String) : List (String × JsArr) × Store :=
  let r := getDomainDataSync st d
  ([("hidden", JsArr.strs r.1.hidden),
    ("removedElements", JsArr.removals r.1.removedElements)], r.2)

/-- Reading a field of a JavaScript object: `none` models `undefined`. -/
def objGet (obj : List (String × JsArr)) (f : String) : Option JsArr :=
  (obj.find? (fun p => p.1 == f)).map (fun p => p.2)

/-- `.length` of a possibly-undefined array value: reading `.length` of
`undefined` throws a `TypeError`. -/
def jsLen : Option JsArr → Except String Nat
  | some (JsArr.strs l) => Except.ok l.length
  | some (JsArr.removals l) => Except.ok l.length
  | none => Except.error "TypeError"

/-- `getCounts(url)` (`part_006` lines 349-360) after domain resolution.
The source evaluates the object literal `{hidden:
domainData.hidden.length, invalidatedCSS:
domainData.invalidatedCSS.length, removedClasses:
domainData.removedElements.length}` in key order. We model the
charitable sequentialisation of the missing `await` on the async
`getDomainData` call (the real code reads the fields off a `Promise`,
which fails even earlier); even so, `domainData` never carries an
`invalidatedCSS` field. -/
def getCounts (st : Store) (d : String) : Except String (Nat × Nat × Nat) := do
  let obj := (getDomainDataObj st d).1
  let h ← jsLen (objGet obj "hidden")
  let i ← jsLen (objGet obj "invalidatedCSS")
  let r ← jsLen (objGet obj "removedElements")
  return (h, i, r)

/-- The `findIndex` / in-place overwrite / `push` combination of
`storeRemovedElement` (`part_002` lines 275-290): replace the first
entry whose `selector` matches, append when none does. -/
def upsertRemoval (l : List Removal) (data : Removal) (sel : String) : List Removal :=
  match l with
  | [] => [data]
  | r :: rest =>
    if r.selector == sel then data :: rest
    else r :: upsertRemoval rest data sel

/-- `DomAttrsRemover.storeRemovedElement(selector, type, count)`
(`part_002` lines 267-300): read the domain data, replace the entry with
the same selector in place when one exists (fresh `count` and
`timestamp`), append otherwise, then `saveDomainData`. `Date.now()` is
the explicit `now` argument. -/
def storeRemovedElement (st : Store) (domain sel ty : String)
    (count now : Nat) : Store :=
  let r := getDomainData st domain
  let removalData : Removal := ⟨sel, ty, count, now⟩
  let newRemoved := upsertRemoval r.1.removedElements removalData sel
  saveDomainData r.2 domain { r.1 with removedElements := newRemoved }

end P6

/-- Claim C3: for every cache state and every origin, `getCounts` of the
`part_006` `StorageManager` does not return the claimed
`{hidden, removedElements, invalidatedCSS}` record — it throws a
`TypeError`, because the domain-data object it reads has no
`invalidatedCSS` field (and the source reads it off an un-awaited
`Promise` besides). -/
theorem claim_C3_theorem (st : P6.Store) (d : String) :
    P6.getCounts st d = Except.error "TypeError" := by
  unfold P6.getCounts P6.getDomainDataObj
  simp only [P6.objGet, P6.jsLen, List.find?]
  rfl

/-- `a ∉ l` from a false `includes`. -/
theorem not_mem_of_contains_false {a : String} {l : List String}
    (h : l.contains a = false) : a ∉ l := by
  intro hm
  have h2 : l.contains a = true := List.elem_iff.mpr hm
  rw [h] at h2
  exact Bool.false_ne_true h2

/-- Appending a fresh element keeps a list duplicate-free. -/
theorem nodup_append_singleton {α : Type} {l : List α} {a : α}
    (hn : l.Nodup) (ha : a ∉ l) : (l ++ [a]).Nodup := by
  rw [List.nodup_append]
  refine ⟨hn, List.nodup_singleton a, ?_⟩
  intro x hx hxa
  simp only [List.mem_singleton] at hxa
  subst hxa
  exact ha hx

namespace P6

theorem addHiddenCore_eq_absent (st : Store) (d sel : String)
    (hg : jsMapGet st d = none) :
    addHiddenCore st d sel
      = jsMapSet (jsMapSet st d emptyDomainData) d ⟨[sel], []⟩ := by
  unfold addHiddenCore getDomainDataSync
  rw [hg]
  rfl

theorem addHiddenCore_eq_dup (st : Store) (d sel : String) (v : DomainData)
    (hg : jsMapGet st d = some v) (hc : v.hidden.contains sel = true) :
    addHiddenCore st d sel = st := by
  unfold addHiddenCore getDomainDataSync
  rw [hg]
  simp only [hc]
  rfl

theorem addHiddenCore_eq_new (st : Store) (d sel : String) (v : DomainData)
    (hg : jsMapGet st d = some v) (hc : v.hidden.contains sel = false) :
    addHiddenCore st d sel = jsMapSet st d { v with hidden := v.hidden ++ [sel] } := by
  unfold addHiddenCore getDomainDataSync
  rw [hg]
  simp only [hc]
  rfl

theorem storeRemovedElement_eq_absent (st : Store) (domain sel ty : String)
    (c n : Nat) (hg : jsMapGet st domain = none) :
    storeRemovedElement st domain sel ty c n
      = jsMapSet (jsMapSet st domain emptyDomainData) domain ⟨[], [⟨sel, ty, c, n⟩]⟩ := by
  unfold storeRemovedElement getDomainData getDomainDataSync saveDomainData
  rw [hg]
  rfl

theorem storeRemovedElement_eq_present (st : Store) (domain sel ty : String)
    (c n : Nat) (v : DomainData) (hg : jsMapGet st domain = some v) :
    storeRemovedElement st domain sel ty c n
      = jsMapSet st domain
          { v with removedElements := upsertRemoval v.removedElements ⟨sel, ty, c, n⟩ sel } := by
  unfold storeRemovedElement getDomainData getDomainDataSync saveDomainData
  rw [hg]

/-- The selector column after an upsert: unchanged when the selector was
already present, extended by the selector otherwise. -/
theorem upsertRemoval_map_selector (l : List Removal) (data : Removal) (sel : String)
    (hd : data.selector = sel) :
    (upsertRemoval l data sel).map (fun r => r.selector) =
      if l.any (fun r => r.selector == sel) then l.map (fun r => r.selector)
      else l.map (fun r => r.selector) ++ [sel] := by
  induction l with
  | nil => simp [upsertRemoval, hd]
  | cons r rest ih =>
    by_cases hr : (r.selector == sel) = true
    · have hr1 : r.selector = sel := by simpa using hr
      simp [upsertRemoval, hr, hd, hr1]
    · simp only [Bool.not_eq_true] at hr
      simp only [upsertRemoval, hr, if_false, List.map_cons, List.any_cons,
        Bool.false_or, ih, Bool.false_eq_true]
      by_cases ha : rest.any (fun r => r.selector == sel) = true
      · simp [ha]
      · simp only [Bool.not_eq_true] at ha
        simp [ha]

theorem upsertRemoval_length (l : List Removal) (data : Removal) (sel : String)
    (hd : data.selector = sel) (ha : l.any (fun r => r.selector == sel) = true) :
    (upsertRemoval l data sel).length = l.length := by
  have h := upsertRemoval_map_selector l data sel hd
  rw [if_pos ha] at h
  have h1 := congrArg List.length h
  simpa using h1

/-- The per-origin uniqueness invariant of the `part_006` store: in
every domain entry, the hidden selectors and the removal-rule selectors
are duplicate-free. -/
def StoreInv (st : Store) : Prop :=
  ∀ d dd, jsMapGet st d = some dd →
    dd.hidden.Nodup ∧ (dd.removedElements.map (fun r => r.selector)).Nodup

theorem StoreInv_addHiddenCore {st : Store} (d sel : String) (h : StoreInv st) :
    StoreInv (addHiddenCore st d sel) := by
  cases hg : jsMapGet st d with
  | none =>
    rw [addHiddenCore_eq_absent st d sel hg]
    intro m dd hm
    by_cases hdm : (d == m) = true
    · have hde : d = m := by simpa using hdm
      subst hde
      rw [jsMapGet_set_same] at hm
      cases hm
      exact ⟨List.nodup_singleton sel, List.nodup_nil⟩
    · simp only [Bool.not_eq_true] at hdm
      rw [jsMapGet_set_other _ _ _ _ hdm, jsMapGet_set_other _ _ _ _ hdm] at hm
      exact h m dd hm
  | some v =>
    by_cases hc : v.hidden.contains sel = true
    · rw [addHiddenCore_eq_dup st d sel v hg hc]
      exact h
    · simp only [Bool.not_eq_true] at hc
      rw [addHiddenCore_eq_new st d sel v hg hc]
      intro m dd hm
      by_cases hdm : (d == m) = true
      · have hde : d = m := by simpa using hdm
        subst hde
        rw [jsMapGet_set_same] at hm
        cases hm
        exact ⟨nodup_append_singleton (h d v hg).1 (not_mem_of_contains_false hc),
          (h d v hg).2⟩
      · simp only [Bool.not_eq_true] at hdm
        rw [jsMapGet_set_other _ _ _ _ hdm] at hm
        exact h m dd hm

theorem StoreInv_storeRemovedElement {st : Store} (domain sel ty : String)
    (c n : Nat) (h : StoreInv st) :
    StoreInv (storeRemovedElement st domain sel ty c n) := by
  cases hg : jsMapGet st domain with
  | none =>
    rw [storeRemovedElement_eq_absent st domain sel ty c n hg]
    intro m dd hm
    by_cases hdm : (domain == m) = true
    · have hde : domain = m := by simpa using hdm
      subst hde
      rw [jsMapGet_set_same] at hm
      cases hm
      exact ⟨List.nodup_nil, List.nodup_singleton sel⟩
    · simp only [Bool.not_eq_true] at hdm
      rw [jsMapGet_set_other _ _ _ _ hdm, jsMapGet_set_other _ _ _ _ hdm] at hm
      exact h m dd hm
  | some v =>
    rw [storeRemovedElement_eq_present st domain sel ty c n v hg]
    intro m dd hm
    by_cases hdm : (domain == m) = true
    · have hde : domain = m := by simpa using hdm
      subst hde
      rw [jsMapGet_set_same] at hm
      cases hm
      refine ⟨(h domain v hg).1, ?_⟩
      rw [upsertRemoval_map_selector v.removedElements ⟨sel, ty, c, n⟩ sel rfl]
      by_cases ha : v.removedElements.any (fun r => r.selector == sel) = true
      · rw [if_pos ha]
        exact (h domain v hg).2
      · simp only [Bool.not_eq_true] at ha
        rw [if_neg (by simp [ha])]
        refine nodup_append_singleton (h domain v hg).2 ?_
        intro hmem
        rcases List.mem_map.mp hmem with ⟨r, hr, hrs⟩
        have : v.removedElements.any (fun r => r.selector == sel) = true :=
          List.any_eq_true.mpr ⟨r, hr, by rw [hrs]; exact beq_self_eq_true sel⟩
        rw [ha] at this
        exact Bool.false_ne_true this
    · simp only [Bool.not_eq_true] at hdm
      rw [jsMapGet_set_other _ _ _ _ hdm] at hm
      exact h m dd hm

/-- The add-type operations of the `part_006` store family:
`addHiddenElement` (url-scoped) and `storeRemovedElement`
(domain-scoped, as `DomAttrsRemover` calls it). -/
inductive Op where
  | addHidden (sel url : String)
  | storeRemoved (domain sel ty : String) (count now : Nat)

def runOps (parseHost : String → Option String) : Store → List Op → Store
  | st, [] => st
  | st, Op.addHidden sel url :: rest =>
    runOps parseHost (addHiddenElement parseHost st sel url) rest
  | st, Op.storeRemoved d sel ty c n :: rest =>
    runOps parseHost (storeRemovedElement st d sel ty c n) rest

theorem StoreInv_runOps (parseHost : String → Option String) (ops : List Op)
    {st : Store} (h : StoreInv st) : StoreInv (runOps parseHost st ops) := by
  induction ops generalizing st with
  | nil => exact h
  | cons op rest ih =>
    cases op with
    | addHidden sel url =>
      exact ih (StoreInv_addHiddenCore _ sel h)
    | storeRemoved d sel ty c n =>
      exact ih (StoreInv_storeRemovedElement d sel ty c n h)

theorem StoreInv_empty : StoreInv ([] : Store) := by
  intro d dd hm
  simp [jsMapGet, List.find?] at hm

end P6

namespace Ext

/-- The per-domain cache value of the extension's
`utils/storage-manager.js` variant: fields `hidden` and
`invalidatedCSS` (lines 39-42, 78-81). -/
structure DomainData where
  hidden : List String
  invalidatedCSS : List String
deriving Repr, DecidableEq

def Store := List (String × DomainData)

instance : DecidableEq Store := by
  unfold Store
  infer_instance

def emptyDomainData : DomainData := ⟨[], []⟩

/-- `getDomainData(domain)` (`utils/storage-manager.js` lines 76-84):
synchronous create-if-missing lookup. -/
def getDomainData (st : Store) (d : String) : DomainData × Store :=
  match jsMapGet st d with
  | some v => (v, st)
  | none => (emptyDomainData, jsMapSet st d emptyDomainData)

/-- `addInvalidatedCSS` cache update (`utils/storage-manager.js` lines
168-179) after domain resolution: push only when
`invalidatedCSS.includes(selector)` is false. -/
def addInvalidatedCore (st : Store) (d sel : String) : Store :=
  let r := getDomainData st d
  if r.1.invalidatedCSS.contains sel then r.2
  else jsMapSet r.2 d { r.1 with invalidatedCSS := r.1.invalidatedCSS ++ [sel] }

/-- `addHiddenElement` cache update of the same variant (lines 104-115),
identical set-add on the `hidden` array. -/
def addHiddenCore (st : Store) (d sel : String) : Store :=
  let r := getDomainData st d
  if r.1.hidden.contains sel then r.2
  else jsMapSet r.2 d { r.1 with hidden := r.1.hidden ++ [sel] }

theorem addInvalidatedCore_eq_dup (st : Store) (d sel : String) (v : DomainData)
    (hg : jsMapGet st d = some v) (hc : v.invalidatedCSS.contains sel = true) :
    addInvalidatedCore st d sel = st := by
  unfold addInvalidatedCore getDomainData
  rw [hg]
  simp only [hc]
  rfl

theorem addInvalidatedCore_eq_new (st : Store) (d sel : String) (v : DomainData)
    (hg : jsMapGet st d = some v) (hc : v.invalidatedCSS.contains sel = false) :
    addInvalidatedCore st d sel
      = jsMapSet st d { v with invalidatedCSS := v.invalidatedCSS ++ [sel] } := by
  unfold addInvalidatedCore getDomainData
  rw [hg]
  simp only [hc]
  rfl

theorem addInvalidatedCore_eq_absent (st : Store) (d sel : String)
    (hg : jsMapGet st d = none) :
    addInvalidatedCore st d sel
      = jsMapSet (jsMapSet st d emptyDomainData) d ⟨[], [sel]⟩ := by
  unfold addInvalidatedCore getDomainData
  rw [hg]
  rfl

theorem extAddHiddenCore_eq_dup (st : Store) (d sel : String) (v : DomainData)
    (hg : jsMapGet st d = some v) (hc : v.hidden.contains sel = true) :
    addHiddenCore st d sel = st := by
  unfold addHiddenCore getDomainData
  rw [hg]
  simp only [hc]
  rfl

theorem extAddHiddenCore_eq_new (st : Store) (d sel : String) (v : DomainData)
    (hg : jsMapGet st d = some v) (hc : v.hidden.contains sel = false) :
    addHiddenCore st d sel
      = jsMapSet st d { v with hidden := v.hidden ++ [sel] } := by
  unfold addHiddenCore getDomainData
  rw [hg]
  simp only [hc]
  rfl

theorem extAddHiddenCore_eq_absent (st : Store) (d sel : String)
    (hg : jsMapGet st d = none) :
    addHiddenCore st d sel
      = jsMapSet (jsMapSet st d emptyDomainData) d ⟨[sel], []⟩ := by
  unfold addHiddenCore getDomainData
  rw [hg]
  rfl

/-- Per-origin uniqueness invariant for the extension-variant store. -/
def StoreInv (st : Store) : Prop :=
  ∀ d dd, jsMapGet st d = some dd →
    dd.hidden.Nodup ∧ dd.invalidatedCSS.Nodup

theorem extStoreInv_addHiddenCore {st : Store} (d sel : String) (h : StoreInv st) :
    StoreInv (addHiddenCore st d sel) := by
  cases hg : jsMapGet st d with
  | none =>
    rw [extAddHiddenCore_eq_absent st d sel hg]
    intro m dd hm
    by_cases hdm : (d == m) = true
    · have hde : d = m := by simpa using hdm
      subst hde
      rw [jsMapGet_set_same] at hm
      cases hm
      exact ⟨List.nodup_singleton sel, List.nodup_nil⟩
    · simp only [Bool.not_eq_true] at hdm
      rw [jsMapGet_set_other _ _ _ _ hdm, jsMapGet_set_other _ _ _ _ hdm] at hm
      exact h m dd hm
  | some v =>
    by_cases hc : v.hidden.contains sel = true
    · rw [extAddHiddenCore_eq_dup st d sel v hg hc]
      exact h
    · simp only [Bool.not_eq_true] at hc
      rw [extAddHiddenCore_eq_new st d sel v hg hc]
      intro m dd hm
      by_cases hdm : (d == m) = true
      · have hde : d = m := by simpa using hdm
        subst hde
        rw [jsMapGet_set_same] at hm
        cases hm
        exact ⟨nodup_append_singleton (h d v hg).1 (not_mem_of_contains_false hc),
          (h d v hg).2⟩
      · simp only [Bool.not_eq_true] at hdm
        rw [jsMapGet_set_other _ _ _ _ hdm] at hm
        exact h m dd hm

theorem extStoreInv_addInvalidatedCore {st : Store} (d sel : String) (h : StoreInv st) :
    StoreInv (addInvalidatedCore st d sel) := by
  cases hg : jsMapGet st d with
  | none =>
    rw [addInvalidatedCore_eq_absent st d sel hg]
    intro m dd hm
    by_cases hdm : (d == m) = true
    · have hde : d = m := by simpa using hdm
      subst hde
      rw [jsMapGet_set_same] at hm
      cases hm
      exact ⟨List.nodup_nil, List.nodup_singleton sel⟩
    · simp only [Bool.not_eq_true] at hdm
      rw [jsMapGet_set_other _ _ _ _ hdm, jsMapGet_set_other _ _ _ _ hdm] at hm
      exact h m dd hm
  | some v =>
    by_cases hc : v.invalidatedCSS.contains sel = true
    · rw [addInvalidatedCore_eq_dup st d sel v hg hc]
      exact h
    · simp only [Bool.not_eq_true] at hc
      rw [addInvalidatedCore_eq_new st d sel v hg hc]
      intro m dd hm
      by_cases hdm : (d == m) = true
      · have hde : d = m := by simpa using hdm
        subst hde
        rw [jsMapGet_set_same] at hm
        cases hm
        exact ⟨(h d v hg).1,
          nodup_append_singleton (h d v hg).2 (not_mem_of_contains_false hc)⟩
      · simp only [Bool.not_eq_true] at hdm
        rw [jsMapGet_set_other _ _ _ _ hdm] at hm
        exact h m dd hm

/-- The add-type operations of the extension-variant store. -/
inductive Op where
  | addHidden (sel url : String)
  | addInvalidated (sel url : String)

def runOps (parseHost : String → Option String) : Store → List Op → Store
  | st, [] => st
  | st, Op.addHidden sel url :: rest =>
    runOps parseHost (addHiddenCore st (getCurrentDomain parseHost url) sel) rest
  | st, Op.addInvalidated sel url :: rest =>
    runOps parseHost (addInvalidatedCore st (getCurrentDomain parseHost url) sel) rest

theorem extStoreInv_runOps (parseHost : String → Option String) (ops : List Op)
    {st : Store} (h : StoreInv st) : StoreInv (runOps parseHost st ops) := by
  induction ops generalizing st with
  | nil => exact h
  | cons op rest ih =>
    cases op with
    | addHidden sel url =>
      exact ih (extStoreInv_addHiddenCore _ sel h)
    | addInvalidated sel url =>
      exact ih (extStoreInv_addInvalidatedCore _ sel h)

theorem extStoreInv_empty : StoreInv ([] : Store) := by
  intro d dd hm
  simp [jsMapGet, List.find?] at hm

end Ext

/-- Claim C10: when the URL cannot be parsed, `getCurrentDomain` returns
`"unknown"` (it catches the `URL` constructor's throw and never
propagates it), and `addHiddenElement` invoked with such a URL scopes
the selector under the `"unknown"` origin key. -/
theorem claim_C10_theorem (parseHost : String → Option String) (url sel : String)
    (st : P6.Store) (h : parseHost url = none) :
    getCurrentDomain parseHost url = "unknown" ∧
    ∃ dd, jsMapGet (P6.addHiddenElement parseHost st sel url) "unknown" = some dd ∧
      sel ∈ dd.hidden := by
  have hdom : getCurrentDomain parseHost url = "unknown" := by
    unfold getCurrentDomain
    rw [h]
  refine ⟨hdom, ?_⟩
  unfold P6.addHiddenElement
  rw [hdom]
  cases hg : jsMapGet st "unknown" with
  | none =>
    rw [P6.addHiddenCore_eq_absent st "unknown" sel hg]
    exact ⟨⟨[sel], []⟩, jsMapGet_set_same _ _ _, List.mem_singleton.mpr rfl⟩
  | some v =>
    by_cases hc : v.hidden.contains sel = true
    · rw [P6.addHiddenCore_eq_dup st "unknown" sel v hg hc]
      exact ⟨v, hg, List.elem_iff.mp hc⟩
    · simp only [Bool.not_eq_true] at hc
      rw [P6.addHiddenCore_eq_new st "unknown" sel v hg hc]
      exact ⟨{ v with hidden := v.hidden ++ [sel] }, jsMapGet_set_same _ _ _,
        List.mem_append_right _ (List.mem_singleton.mpr rfl)⟩

/-- Witness for C10 at a concrete unparseable URL over the empty store. -/
theorem claim_C10_witness :
    getCurrentDomain (fun _ => none) "::bad url::" = "unknown" ∧
    ∃ dd, jsMapGet (P6.addHiddenElement (fun _ => none) [] ".ad-banner" "::bad url::")
        "unknown" = some dd ∧ ".ad-banner" ∈ dd.hidden :=
  claim_C10_theorem (fun _ => none) "::bad url::" ".ad-banner" [] rfl

/-- Store for the C5 counterexample: one removal rule for `.ad`
recorded with count 1 at timestamp 100. -/
def storeC5 : P6.Store :=
  [("example.com", ⟨[], [⟨".ad", "class", 1, 100⟩]⟩)]

/-- Claim C5 (counterexample): re-adding a removal rule whose selector
is already present does NOT leave the collection unchanged —
`storeRemovedElement` overwrites the entry in place with the new count
and timestamp, so the store after the call differs from the store
before. -/
theorem claim_C5_counterexample :
    ((P6.getDomainData storeC5 "example.com").1.removedElements.any
        (fun r => r.selector == ".ad")) = true ∧
    P6.storeRemovedElement storeC5 "example.com" ".ad" "class" 2 200 ≠ storeC5 ∧
    jsMapGet (P6.storeRemovedElement storeC5 "example.com" ".ad" "class" 2 200)
        "example.com" = some ⟨[], [⟨".ad", "class", 2, 200⟩]⟩ := by
  refine ⟨by decide, by decide, by decide⟩

/-- Claim C5 (amended): adding a selector already present appends no
duplicate. For the `hidden` and `invalidatedCSS` collections the store
is left entirely unchanged; for `removedElements`,
`storeRemovedElement` keeps the selector column and the length
unchanged but overwrites the matching entry in place (fresh count and
timestamp). Consequently, after any sequence of add operations from an
empty store, each selector occurs at most once per collection. -/
theorem claim_C5_amended :
    (∀ (st : P6.Store) (d sel : String) (dd : P6.DomainData),
        jsMapGet st d = some dd → dd.hidden.contains sel = true →
        P6.addHiddenCore st d sel = st) ∧
    (∀ (st : Ext.Store) (d sel : String) (dd : Ext.DomainData),
        jsMapGet st d = some dd → dd.invalidatedCSS.contains sel = true →
        Ext.addInvalidatedCore st d sel = st) ∧
    (∀ (st : P6.Store) (d sel ty : String) (c n : Nat) (dd : P6.DomainData),
        jsMapGet st d = some dd →
        dd.removedElements.any (fun r => r.selector == sel) = true →
        ∃ dd2, jsMapGet (P6.storeRemovedElement st d sel ty c n) d = some dd2 ∧
          dd2.hidden = dd.hidden ∧
          dd2.removedElements.map (fun r => r.selector)
            = dd.removedElements.map (fun r => r.selector) ∧
          dd2.removedElements.length = dd.removedElements.length) ∧
    (∀ (parseHost : String → Option String) (ops : List P6.Op),
        P6.StoreInv (P6.runOps parseHost [] ops)) ∧
    (∀ (parseHost : String → Option String) (ops : List Ext.Op),
        Ext.StoreInv (Ext.runOps parseHost [] ops)) := by
  refine ⟨?_, ?_, ?_, ?_, ?_⟩
  · intro st d sel dd hg hc
    exact P6.addHiddenCore_eq_dup st d sel dd hg hc
  · intro st d sel dd hg hc
    exact Ext.addInvalidatedCore_eq_dup st d sel dd hg hc
  · intro st d sel ty c n dd hg ha
    rw [P6.storeRemovedElement_eq_present st d sel ty c n dd hg]
    refine ⟨_, jsMapGet_set_same _ _ _, rfl, ?_, ?_⟩
    · rw [P6.upsertRemoval_map_selector dd.removedElements ⟨sel, ty, c, n⟩ sel rfl,
        if_pos ha]
    · exact P6.upsertRemoval_length dd.removedElements ⟨sel, ty, c, n⟩ sel rfl ha
  · intro parseHost ops
    exact P6.StoreInv_runOps parseHost ops P6.StoreInv_empty
  · intro parseHost ops
    exact Ext.extStoreInv_runOps parseHost ops Ext.extStoreInv_empty

/-- Extension-variant store for the C5 witness. -/
def storeC5i : Ext.Store := [("example.com", ⟨[], [".blur-wrap"]⟩)]

/-- Part-006 store with a hidden selector for the C5 witness. -/
def storeC5h : P6.Store := [("example.com", ⟨[".x"], []⟩)]

/-- Witness for C5 (amended) at concrete stores: duplicate adds of
`.x` (hidden), `.blur-wrap` (invalidatedCSS) and `.ad`
(removedElements). -/
theorem claim_C5_witness :
    P6.addHiddenCore storeC5h "example.com" ".x" = storeC5h ∧
    Ext.addInvalidatedCore storeC5i "example.com" ".blur-wrap" = storeC5i ∧
    ∃ dd2, jsMapGet (P6.storeRemovedElement storeC5 "example.com" ".ad" "id" 0 300)
        "example.com" = some dd2 ∧
      dd2.hidden = (⟨[], [⟨".ad", "class", 1, 100⟩]⟩ : P6.DomainData).hidden ∧
      dd2.removedElements.map (fun r => r.selector)
        = (⟨[], [⟨".ad", "class", 1, 100⟩]⟩ : P6.DomainData).removedElements.map
            (fun r => r.selector) ∧
      dd2.removedElements.length
        = (⟨[], [⟨".ad", "class", 1, 100⟩]⟩ : P6.DomainData).removedElements.length :=
  ⟨claim_C5_amended.1 storeC5h "example.com" ".x" ⟨[".x"], []⟩ (by decide) (by decide),
   claim_C5_amended.2.1 storeC5i "example.com" ".blur-wrap" ⟨[], [".blur-wrap"]⟩
     (by decide) (by decide),
   claim_C5_amended.2.2.1 storeC5 "example.com" ".ad" "id" 0 300
     ⟨[], [⟨".ad", "class", 1, 100⟩]⟩ (by decide) (by decide)⟩

/-- `Constants.STYLES.CSS_INVALIDATION_TEMPLATE` (`part_007` lines
122-151): the property-reset payload placed inside each generated rule.
Leading indentation of the template literal is normalised to single
newlines in this model; the payload is opaque to every property proved
here. -/
def cssInvalidationTemplate : String :=
  "all: unset !important;\n" ++
  "display: revert !important;\n" ++
  "position: static !important;\n" ++
  "top: auto !important;\n" ++
  "left: auto !important;\n" ++
  "right: auto !important;\n" ++
  "bottom: auto !important;\n" ++
  "width: auto !important;\n" ++
  "height: auto !important;\n" ++
  "max-width: none !important;\n" ++
  "max-height: none !important;\n" ++
  "min-width: 0 !important;\n" ++
  "min-height: 0 !important;\n" ++
  "margin: 0 !important;\n" ++
  "padding: 0 !important;\n" ++
  "border: none !important;\n" ++
  "background: transparent !important;\n" ++
  "opacity: 1 !important;\n" ++
  "visibility: visible !important;\n" ++
  "z-index: auto !important;\n" ++
  "transform: none !important;\n" ++
  "filter: none !important;\n" ++
  "backdrop-filter: none !important;\n" ++
  "pointer-events: auto !important;\n" ++
  "overflow: visible !important;\n" ++
  "clip: auto !important;\n" ++
  "clip-path: none !important;\n" ++
  "mask: none !important;"

/-- `CSSInvalidator.generateInvalidationRule(selector)` (`part_000`
lines 266-317): one block of three rules of increasing specificity —
`selector`, `html selector`, `html body selector` — each holding the
reset template. -/
def generateInvalidationRule (selector : String) : String :=
  selector ++ " \x7b\n" ++ cssInvalidationTemplate ++ "\n\x7d\n\n" ++
  "/* Additional specificity boost */\n" ++
  "html " ++ selector ++ " \x7b\n" ++ cssInvalidationTemplate ++ "\n\x7d\n\n" ++
  "/* Maximum specificity for stubborn rules */\n" ++
  "html body " ++ selector ++ " \x7b\n" ++ cssInvalidationTemplate ++ "\n\x7d\n"

/-- `CSSInvalidator.updateStyleElement` content computation (`part_000`
lines 247-259): the style element's `textContent` is the
newline-joined concatenation of the invalidation rules of all currently
invalidated selectors. -/
def renderStyles (sels : List String) : String :=
  String.intercalate "\n" (sels.map generateInvalidationRule)

/-- The `CSSInvalidator` state (`part_000` lines 91-97): the insertion
-ordered set of invalidated selectors and the engine-owned `<style>`
element's text content. The optional `storageManager` write inside
`invalidateSelector`/`restoreSelector` is wrapped in its own try/catch
and never changes this state, so it is not part of the model. -/
structure CSSInvalidator where
  invalidatedSelectors : List String
  styleContent : String
deriving Repr, DecidableEq

def updateStyleElement (c : CSSInvalidator) : CSSInvalidator :=
  { c with styleContent := renderStyles c.invalidatedSelectors }

/-- `CSSInvalidator.isValidSelector(selector)` (`part_000` lines
324-355): non-empty, trimmed form starts with `.`/`#`/`[`, has content
after it, attribute selectors are closed, and the platform
`document.querySelector` accepts it — the last check is the `parseOk`
oracle. -/
def isValidSelector (parseOk : String → Bool) (s : String) : Bool :=
  (s != "") &&
  (let t := jsTrim s
   (jsStartsWith t "." || jsStartsWith t "#" || jsStartsWith t "[") &&
   decide (1 < t.data.length) &&
   (!(jsStartsWith t "[") || jsEndsWith t "]") &&
   parseOk t)

/-- `CSSInvalidator.invalidateSelector(selector)` (`part_000` lines
135-169): reject invalid selectors (the throw is caught by the
function's own try/catch, which reports `false`); short-circuit with
`true` when the selector is already invalidated; otherwise add it to
the set and rewrite the style element. -/
def invalidateSelector (parseOk : String → Bool) (c : CSSInvalidator) (s : String) :
    CSSInvalidator × Bool :=
  if !(isValidSelector parseOk s) then (c, false)
  else if c.invalidatedSelectors.contains s then (c, true)
  else
    (updateStyleElement
      { c with invalidatedSelectors := c.invalidatedSelectors ++ [s] }, true)

/-- `CSSInvalidator.restoreSelector(selector)` (`part_000` lines
176-199): delete the selector from the set and rewrite the style
element from the remaining set; report `false` when it was not
invalidated. -/
def restoreSelector (c : CSSInvalidator) (s : String) : CSSInvalidator × Bool :=
  if c.invalidatedSelectors.contains s then
    (updateStyleElement
      { c with invalidatedSelectors := c.invalidatedSelectors.erase s }, true)
  else (c, false)

/-- The freshly initialised invalidator: empty set, empty style element
(`createStyleElement`, `part_000` lines 110-128). -/
def CSSInvalidator.init : CSSInvalidator := ⟨[], ""⟩

/-- Reachable-state invariant of the invalidator: the style content is
the rendering of the selector set, and the set (a JS `Set`) has no
duplicates. -/
def CSSInvalidator.WF (c : CSSInvalidator) : Prop :=
  c.styleContent = renderStyles c.invalidatedSelectors ∧
  c.invalidatedSelectors.Nodup

theorem invalidateSelector_already (parseOk : String → Bool) (c : CSSInvalidator)
    (s : String) (hv : isValidSelector parseOk s = true)
    (hc : c.invalidatedSelectors.contains s = true) :
    invalidateSelector parseOk c s = (c, true) := by
  unfold invalidateSelector
  rw [hv]
  simp only [hc]
  rfl

theorem invalidateSelector_new (parseOk : String → Bool) (c : CSSInvalidator)
    (s : String) (hv : isValidSelector parseOk s = true)
    (hc : c.invalidatedSelectors.contains s = false) :
    invalidateSelector parseOk c s =
      (updateStyleElement
        { c with invalidatedSelectors := c.invalidatedSelectors ++ [s] }, true) := by
  unfold invalidateSelector
  rw [hv]
  simp only [hc]
  rfl

theorem restoreSelector_present (c : CSSInvalidator) (s : String)
    (hc : c.invalidatedSelectors.contains s = true) :
    restoreSelector c s =
      (updateStyleElement
        { c with invalidatedSelectors := c.invalidatedSelectors.erase s }, true) := by
  unfold restoreSelector
  simp only [hc]
  rfl

/-- Claim C4: for a valid selector over a well-formed invalidator state,
invalidating twice equals invalidating once (the second call is a no-op
that still reports success), the resulting style element renders a
selector set in which the selector occurs exactly once (one 3-rule
block, not two), and restoring the selector rewrites the style content
from exactly the remaining selector set. -/
theorem claim_C4_theorem (parseOk : String → Bool) (c : CSSInvalidator) (s : String)
    (hv : isValidSelector parseOk s = true) (hwf : c.WF) :
    (invalidateSelector parseOk c s).2 = true ∧
    invalidateSelector parseOk (invalidateSelector parseOk c s).1 s
      = ((invalidateSelector parseOk c s).1, true) ∧
    (invalidateSelector parseOk c s).1.invalidatedSelectors.count s = 1 ∧
    (invalidateSelector parseOk c s).1.styleContent
      = renderStyles (invalidateSelector parseOk c s).1.invalidatedSelectors ∧
    (restoreSelector (invalidateSelector parseOk c s).1 s).1.styleContent
      = renderStyles ((invalidateSelector parseOk c s).1.invalidatedSelectors.erase s) := by
  by_cases hc : c.invalidatedSelectors.contains s = true
  · have h1 := invalidateSelector_already parseOk c s hv hc
    have hmem : s ∈ c.invalidatedSelectors := List.elem_iff.mp hc
    refine ⟨by rw [h1], by rw [h1, h1], ?_, ?_, ?_⟩
    · rw [h1]
      exact List.count_eq_one_of_mem hwf.2 hmem
    · rw [h1]
      exact hwf.1
    · rw [h1, restoreSelector_present c s hc]
      rfl
  · simp only [Bool.not_eq_true] at hc
    have hnm : s ∉ c.invalidatedSelectors := not_mem_of_contains_false hc
    have h1 := invalidateSelector_new parseOk c s hv hc
    have hsels : (invalidateSelector parseOk c s).1.invalidatedSelectors
        = c.invalidatedSelectors ++ [s] := by
      rw [h1]
      rfl
    have hc2 : (invalidateSelector parseOk c s).1.invalidatedSelectors.contains s = true := by
      rw [hsels]
      exact List.elem_iff.mpr (List.mem_append_right _ (List.mem_singleton.mpr rfl))
    refine ⟨by rw [h1], ?_, ?_, ?_, ?_⟩
    · exact invalidateSelector_already parseOk _ s hv hc2
    · rw [hsels, List.count_append, List.count_eq_zero_of_not_mem hnm]
      simp
    · rw [h1]
      rfl
    · rw [restoreSelector_present _ s hc2]
      rfl
/-- Witness for C4 at a concrete input: invalidating `.blur-wrap` on a
fresh invalidator, with a parse oracle that accepts everything. -/
theorem claim_C4_witness :
    isValidSelector (fun _ => true) ".blur-wrap" = true ∧
    CSSInvalidator.init.WF ∧
    ((invalidateSelector (fun _ => true) CSSInvalidator.init ".blur-wrap").2 = true ∧
     invalidateSelector (fun _ => true)
         (invalidateSelector (fun _ => true) CSSInvalidator.init ".blur-wrap").1 ".blur-wrap"
       = ((invalidateSelector (fun _ => true) CSSInvalidator.init ".blur-wrap").1, true) ∧
     (invalidateSelector (fun _ => true) CSSInvalidator.init
         ".blur-wrap").1.invalidatedSelectors.count ".blur-wrap" = 1 ∧
     (invalidateSelector (fun _ => true) CSSInvalidator.init ".blur-wrap").1.styleContent
       = renderStyles (invalidateSelector (fun _ => true) CSSInvalidator.init
           ".blur-wrap").1.invalidatedSelectors ∧
     (restoreSelector (invalidateSelector (fun _ => true) CSSInvalidator.init
         ".blur-wrap").1 ".blur-wrap").1.styleContent
       = renderStyles ((invalidateSelector (fun _ => true) CSSInvalidator.init
           ".blur-wrap").1.invalidatedSelectors.erase ".blur-wrap")) :=
  ⟨by decide, ⟨rfl, List.nodup_nil⟩,
   claim_C4_theorem (fun _ => true) CSSInvalidator.init ".blur-wrap" (by decide)
     ⟨rfl, List.nodup_nil⟩⟩

/-! `DomAttrsRemover` (`part_002`): removal of classes, id elements and
complex-selector elements from a document, persisting each rule. The
document is the list of its elements in tree order; the platform CSS
engine for complex selectors (`document.querySelectorAll`) is the
`matchQ` oracle, returning `none` exactly when the selector is
syntactically invalid (the native throw). -/

instance : Inhabited Elem := ⟨⟨"", "", "", [], "", ""⟩⟩

/-- The whitespace-separated class tokens of an element. -/
def classTokens (e : Elem) : List String :=
  (jsSplit e.className ' ').filter (fun c => c != "")

/-- Membership test used by `getElementsByClassName` /
`classList.contains`. -/
def hasClass (e : Elem) (c : String) : Bool :=
  (classTokens e).contains c

/-- `element.classList.remove(c)`: drop the token and re-serialise. -/
def removeClass (e : Elem) (c : String) : Elem :=
  { e with className := String.intercalate " " ((classTokens e).filter (fun x => x != c)) }

/-- `DomAttrsRemover.removeElements(selector)` (`part_002` lines
47-115), for an initialised remover. Class selectors strip the class
from every current match (`getElementsByClass` also runs
`processNewElements`, which marks previously unmarked matches with
`data-hidethis-processed`); id selectors remove the
`document.getElementById` element — the FIRST element with that id —
from the document; other selectors are given to `querySelectorAll`
(`matchQ`) and every match is removed, with the native syntax error
propagated. The rule is persisted through `storeRemovedElement` even
when the count is 0. -/
def removeElements (matchQ : String → Option (Elem → Bool)) (st : P6.Store)
    (domain : String) (doc : List Elem) (selector : String) (now : Nat) :
    Except String (List Elem × P6.Store × Nat) :=
  if selector == "" then Except.error "Selector must be a non-empty string"
  else
    let cleanSelector := jsTrim selector
    if jsStartsWith cleanSelector "." then
      let className := jsDrop cleanSelector 1
      let existing := doc.filter (fun e => hasClass e className)
      let doc1 := doc.map (fun e =>
        if hasClass e className then
          if hasAttr e "data-hidethis-processed" then removeClass e className
          else setAttr (removeClass e className) "data-hidethis-processed" "true"
        else e)
      let count := existing.length
      Except.ok (doc1,
        P6.storeRemovedElement st domain cleanSelector "class" count now, count)
    else if jsStartsWith cleanSelector "#" then
      let idName := jsDrop cleanSelector 1
      let found := doc.any (fun e => e.id == idName)
      let doc1 := doc.eraseP (fun e => e.id == idName)
      let count := if found then 1 else 0
      Except.ok (doc1,
        P6.storeRemovedElement st domain cleanSelector "id" count now, count)
    else
      match matchQ cleanSelector with
      | none => Except.error ("Invalid CSS selector: " ++ cleanSelector)
      | some m =>
        let elements := doc.filter m
        let doc1 := doc.filter (fun e => !(m e))
        Except.ok (doc1,
          P6.storeRemovedElement st domain cleanSelector "complex" elements.length now,
          elements.length)

theorem removeElements_invalid (matchQ : String → Option (Elem → Bool))
    (st : P6.Store) (domain : String) (doc : List Elem) (selector : String) (now : Nat)
    (hne : (selector == "") = false)
    (hdot : jsStartsWith (jsTrim selector) "." = false)
    (hpound : jsStartsWith (jsTrim selector) "#" = false)
    (hq : matchQ (jsTrim selector) = none) :
    removeElements matchQ st domain doc selector now
      = Except.error ("Invalid CSS selector: " ++ jsTrim selector) := by
  unfold removeElements
  simp only [hne, hdot, hpound, hq, Bool.false_eq_true, if_false]

theorem removeElements_class (matchQ : String → Option (Elem → Bool))
    (st : P6.Store) (domain : String) (doc : List Elem) (selector : String) (now : Nat)
    (hne : (selector == "") = false)
    (hdot : jsStartsWith (jsTrim selector) "." = true) :
    removeElements matchQ st domain doc selector now
      = Except.ok
          (doc.map (fun e =>
            if hasClass e (jsDrop (jsTrim selector) 1) then
              if hasAttr e "data-hidethis-processed" then
                removeClass e (jsDrop (jsTrim selector) 1)
              else
                setAttr (removeClass e (jsDrop (jsTrim selector) 1))
                  "data-hidethis-processed" "true"
            else e),
           P6.storeRemovedElement st domain (jsTrim selector) "class"
             (doc.filter (fun e => hasClass e (jsDrop (jsTrim selector) 1))).length now,
           (doc.filter (fun e => hasClass e (jsDrop (jsTrim selector) 1))).length) := by
  unfold removeElements
  simp only [hne, hdot, Bool.false_eq_true, if_false, if_true]

theorem removeElements_id (matchQ : String → Option (Elem → Bool))
    (st : P6.Store) (domain : String) (doc : List Elem) (selector : String) (now : Nat)
    (hne : (selector == "") = false)
    (hdot : jsStartsWith (jsTrim selector) "." = false)
    (hpound : jsStartsWith (jsTrim selector) "#" = true) :
    removeElements matchQ st domain doc selector now
      = Except.ok
          (doc.eraseP (fun e => e.id == jsDrop (jsTrim selector) 1),
           P6.storeRemovedElement st domain (jsTrim selector) "id"
             (if doc.any (fun e => e.id == jsDrop (jsTrim selector) 1) then 1 else 0) now,
           if doc.any (fun e => e.id == jsDrop (jsTrim selector) 1) then 1 else 0) := by
  unfold removeElements
  simp only [hne, hdot, hpound, Bool.false_eq_true, if_false, if_true]

theorem removeElements_complex (matchQ : String → Option (Elem → Bool))
    (st : P6.Store) (domain : String) (doc : List Elem) (selector : String) (now : Nat)
    (m : Elem → Bool)
    (hne : (selector == "") = false)
    (hdot : jsStartsWith (jsTrim selector) "." = false)
    (hpound : jsStartsWith (jsTrim selector) "#" = false)
    (hq : matchQ (jsTrim selector) = some m) :
    removeElements matchQ st domain doc selector now
      = Except.ok
          (doc.filter (fun e => !(m e)),
           P6.storeRemovedElement st domain (jsTrim selector) "complex"
             (doc.filter m).length now,
           (doc.filter m).length) := by
  unfold removeElements
  simp only [hne, hdot, hpound, hq, Bool.false_eq_true, if_false]

/-- After an upsert keyed on `sel`, an entry with selector `sel` is
present. -/
theorem upsertRemoval_any_self (l : List P6.Removal) (data : P6.Removal) (sel : String)
    (hd : data.selector = sel) :
    (P6.upsertRemoval l data sel).any (fun r => r.selector == sel) = true := by
  induction l with
  | nil =>
    simp [P6.upsertRemoval, List.any_cons, hd]
  | cons r rest ih =>
    by_cases hr : (r.selector == sel) = true
    · simp [P6.upsertRemoval, hr, List.any_cons, hd]
    · simp only [Bool.not_eq_true] at hr
      simp [P6.upsertRemoval, hr, List.any_cons, ih]

/-- `storeRemovedElement` always leaves a rule for the selector in the
domain's `removedElements` collection. -/
theorem storeRemovedElement_persists (st : P6.Store) (domain sel ty : String)
    (c n : Nat) :
    ∃ dd, jsMapGet (P6.storeRemovedElement st domain sel ty c n) domain = some dd ∧
      dd.removedElements.any (fun r => r.selector == sel) = true := by
  cases hg : jsMapGet st domain with
  | none =>
    rw [P6.storeRemovedElement_eq_absent st domain sel ty c n hg]
    exact ⟨⟨[], [⟨sel, ty, c, n⟩]⟩, jsMapGet_set_same _ _ _,
      by simp [List.any_cons]⟩
  | some v =>
    rw [P6.storeRemovedElement_eq_present st domain sel ty c n v hg]
    exact ⟨_, jsMapGet_set_same _ _ _,
      upsertRemoval_any_self v.removedElements ⟨sel, ty, c, n⟩ sel rfl⟩

theorem singleton_isPrefixOf (a : Char) (l : List Char) :
    [a].isPrefixOf l = (match l with | [] => false | b :: _ => a == b) := by
  cases l with
  | nil => rfl
  | cons b bs =>
    show (a == b && List.isPrefixOf [] bs) = (a == b)
    rw [List.isPrefixOf]
    exact Bool.and_true _

/-- A trimmed selector starting with `#` does not start with `.`. -/
theorem jsStartsWith_pound_not_dot (t : String) (h : jsStartsWith t "#" = true) :
    jsStartsWith t "." = false := by
  unfold jsStartsWith at h ⊢
  rw [show ("#" : String).data = ['#'] from rfl, singleton_isPrefixOf] at h
  rw [show ("." : String).data = ['.'] from rfl, singleton_isPrefixOf]
  revert h
  rcases t.data with _ | ⟨b, bs⟩
  · intro h
    exact absurd h (by simp)
  · intro h
    have hb : '#' = b := by simpa using h
    rw [← hb]
    simp

/-- `eraseP` removes exactly the first satisfying element. -/
theorem eraseP_first {α : Type} (p : α → Bool) (pre : List α) (e : α) (post : List α)
    (hpre : ∀ f ∈ pre, p f = false) (he : p e = true) :
    (pre ++ e :: post).eraseP p = pre ++ post := by
  induction pre with
  | nil => simpa using List.eraseP_cons_of_pos he
  | cons a rest ih =>
    rw [List.cons_append,
      List.eraseP_cons_of_neg (by simp [hpre a (by simp)]),
      ih (fun f hf => hpre f (by simp [hf])), List.cons_append]

theorem map_id_of_mem {α : Type} (l : List α) (f : α → α) (h : ∀ a ∈ l, f a = a) :
    l.map f = l := by
  induction l with
  | nil => rfl
  | cons a rest ih =>
    rw [List.map_cons, h a (by simp), ih (fun b hb => h b (by simp [hb]))]

/-- Elements for the C6 counterexample: two elements carrying the same
id `x` (invalid HTML, but DOM-representable, and exactly the case where
"all matches" and "the first match" differ). -/
def elemX1 : Elem := ⟨"DIV", "x", "", [], "", "block"⟩

def elemX2 : Elem := ⟨"SPAN", "x", "", [], "", "inline"⟩

/-- Claim C6 (counterexample): on a document with two elements of id
`x`, the selector `#x` matches both, but `removeElements "#x"` uses
`getElementById` and deletes only the first — the second matching
element survives and the returned count is 1, not 2. -/
theorem claim_C6_counterexample :
    (([elemX1, elemX2] : List Elem).filter (fun e => e.id == "x")).length = 2 ∧
    removeElements (fun _ => none) [] "example.com" [elemX1, elemX2] "#x" 0
      = Except.ok ([elemX2],
          P6.storeRemovedElement [] "example.com" "#x" "id" 1 0, 1) :=
  ⟨by decide, rfl⟩

/-- Claim C6 (amended): for a complex selector, every currently matching
element is deleted and the count is the number of matches; for an id
selector, only the FIRST element with that id is deleted
(`getElementById` semantics) with count 1 (0 when absent) — the count
still equals the number of elements actually deleted. -/
theorem claim_C6_amended :
    (∀ (matchQ : String → Option (Elem → Bool)) (st : P6.Store) (domain : String)
        (doc : List Elem) (s : String) (now : Nat) (m : Elem → Bool),
      (s == "") = false →
      jsStartsWith (jsTrim s) "." = false →
      jsStartsWith (jsTrim s) "#" = false →
      matchQ (jsTrim s) = some m →
      removeElements matchQ st domain doc s now
        = Except.ok (doc.filter (fun e => !(m e)),
            P6.storeRemovedElement st domain (jsTrim s) "complex"
              (doc.filter m).length now,
            (doc.filter m).length)) ∧
    (∀ (matchQ : String → Option (Elem → Bool)) (st : P6.Store) (domain : String)
        (pre post : List Elem) (e : Elem) (s : String) (now : Nat),
      (s == "") = false →
      jsStartsWith (jsTrim s) "#" = true →
      (∀ f ∈ pre, (f.id == jsDrop (jsTrim s) 1) = false) →
      (e.id == jsDrop (jsTrim s) 1) = true →
      removeElements matchQ st domain (pre ++ e :: post) s now
        = Except.ok (pre ++ post,
            P6.storeRemovedElement st domain (jsTrim s) "id" 1 now, 1)) := by
  constructor
  · intro matchQ st domain doc s now m hne hdot hpound hq
    exact removeElements_complex matchQ st domain doc s now m hne hdot hpound hq
  · intro matchQ st domain pre post e s now hne hpound hpre he
    have hdot := jsStartsWith_pound_not_dot (jsTrim s) hpound
    rw [removeElements_id matchQ st domain (pre ++ e :: post) s now hne hdot hpound]
    have hany : (pre ++ e :: post).any (fun f => f.id == jsDrop (jsTrim s) 1) = true :=
      List.any_eq_true.mpr ⟨e, by simp, he⟩
    rw [hany, eraseP_first _ pre e post hpre he]
    simp

/-- Witness for C6 (amended) at concrete inputs: a complex selector
matching `DIV` elements, and the id selector `#x` removing the first of
two matching elements. -/
theorem claim_C6_witness :
    removeElements (fun _ => some (fun e => e.tagName == "DIV")) []
        "example.com" [elemX1, elemX2] "div" 0
      = Except.ok ([elemX2],
          P6.storeRemovedElement [] "example.com" "div" "complex" 1 0, 1) ∧
    removeElements (fun _ => none) [] "example.com"
        ([] ++ elemX1 :: [elemX2]) "#x" 0
      = Except.ok ([] ++ [elemX2],
          P6.storeRemovedElement [] "example.com" "#x" "id" 1 0, 1) :=
  ⟨by
    have h := claim_C6_amended.1 (fun _ => some (fun e => e.tagName == "DIV")) []
      "example.com" [elemX1, elemX2] "div" 0 (fun e => e.tagName == "DIV")
      (by decide) (by decide) (by decide) rfl
    rw [h]
    rfl,
   claim_C6_amended.2 (fun _ => none) [] "example.com" [] [elemX2] elemX1 "#x" 0
     (by decide) (by decide) (by intro f hf; cases hf) (by decide)⟩

/-- Claim C7: applying `removeElements` with a syntactically valid
selector that matches zero elements succeeds (no throw) with count 0,
leaves the document unchanged, and still persists the rule — a
`removedElements` entry with that selector exists afterwards. The three
selector kinds (id, complex, class) are covered. -/
theorem claim_C7_theorem :
    (∀ (matchQ : String → Option (Elem → Bool)) (st : P6.Store) (domain : String)
        (doc : List Elem) (s : String) (now : Nat),
      (s == "") = false →
      jsStartsWith (jsTrim s) "#" = true →
      doc.any (fun e => e.id == jsDrop (jsTrim s) 1) = false →
      ∃ st2, removeElements matchQ st domain doc s now = Except.ok (doc, st2, 0) ∧
        ∃ dd, jsMapGet st2 domain = some dd ∧
          dd.removedElements.any (fun r => r.selector == jsTrim s) = true) ∧
    (∀ (matchQ : String → Option (Elem → Bool)) (st : P6.Store) (domain : String)
        (doc : List Elem) (s : String) (now : Nat) (m : Elem → Bool),
      (s == "") = false →
      jsStartsWith (jsTrim s) "." = false →
      jsStartsWith (jsTrim s) "#" = false →
      matchQ (jsTrim s) = some m →
      doc.filter m = [] →
      ∃ st2, removeElements matchQ st domain doc s now = Except.ok (doc, st2, 0) ∧
        ∃ dd, jsMapGet st2 domain = some dd ∧
          dd.removedElements.any (fun r => r.selector == jsTrim s) = true) ∧
    (∀ (matchQ : String → Option (Elem → Bool)) (st : P6.Store) (domain : String)
        (doc : List Elem) (s : String) (now : Nat),
      (s == "") = false →
      jsStartsWith (jsTrim s) "." = true →
      doc.any (fun e => hasClass e (jsDrop (jsTrim s) 1)) = false →
      ∃ st2, removeElements matchQ st domain doc s now = Except.ok (doc, st2, 0) ∧
        ∃ dd, jsMapGet st2 domain = some dd ∧
          dd.removedElements.any (fun r => r.selector == jsTrim s) = true) := by
  refine ⟨?_, ?_, ?_⟩
  · intro matchQ st domain doc s now hne hpound hany
    have hdot := jsStartsWith_pound_not_dot (jsTrim s) hpound
    rw [removeElements_id matchQ st domain doc s now hne hdot hpound]
    have hforall := List.any_eq_false.mp hany
    rw [hany, List.eraseP_of_forall_not hforall]
    exact ⟨_, rfl, storeRemovedElement_persists st domain (jsTrim s) "id" 0 now⟩
  · intro matchQ st domain doc s now m hne hdot hpound hq hzero
    rw [removeElements_complex matchQ st domain doc s now m hne hdot hpound hq]
    have hforall : ∀ a ∈ doc, ¬ (m a = true) := List.filter_eq_nil_iff.mp hzero
    have hself : doc.filter (fun e => !(m e)) = doc :=
      List.filter_eq_self.mpr (fun a ha => by
        have hf : m a = false := Bool.eq_false_iff.mpr (hforall a ha)
        rw [hf]
        rfl)
    rw [hself, hzero]
    exact ⟨_, rfl, storeRemovedElement_persists st domain (jsTrim s) "complex" 0 now⟩
  · intro matchQ st domain doc s now hne hdot hany
    rw [removeElements_class matchQ st domain doc s now hne hdot]
    have hforall := List.any_eq_false.mp hany
    have hmap : doc.map (fun e =>
        if hasClass e (jsDrop (jsTrim s) 1) then
          if hasAttr e "data-hidethis-processed" then
            removeClass e (jsDrop (jsTrim s) 1)
          else
            setAttr (removeClass e (jsDrop (jsTrim s) 1))
              "data-hidethis-processed" "true"
        else e) = doc := by
      refine map_id_of_mem doc _ (fun a ha => ?_)
      have : ¬ (hasClass a (jsDrop (jsTrim s) 1) = true) := hforall a ha
      simp [this]
    have hfil : doc.filter (fun e => hasClass e (jsDrop (jsTrim s) 1)) = [] :=
      List.filter_eq_nil_iff.mpr hforall
    rw [hmap, hfil]
    exact ⟨_, rfl, storeRemovedElement_persists st domain (jsTrim s) "class" 0 now⟩

/-- Witness for C7: replaying the persisted `#cookie-modal` removal rule
against a document that has no such element succeeds with count 0 and
keeps the rule persisted. -/
theorem claim_C7_witness :
    ∃ st2, removeElements (fun _ => none) [] "example.com" [elemX1]
        "#cookie-modal" 0 = Except.ok ([elemX1], st2, 0) ∧
      ∃ dd, jsMapGet st2 "example.com" = some dd ∧
        dd.removedElements.any (fun r => r.selector == jsTrim "#cookie-modal") = true :=
  claim_C7_theorem.1 (fun _ => none) [] "example.com" [elemX1] "#cookie-modal" 0
    (by decide) (by decide) (by decide)

/-! The Bootstrapping sweep (`selector.js` `restorePersistedData`, lines
134-164, and `part_002` `restoreRemovedElements`, lines 373-402): every
persisted rule is replayed, with each rule's errors caught individually
so the sweep never aborts. -/

/-- One selector of the hidden-elements sweep: `querySelectorAll`
snapshots the current matches, and each match not yet in
`this.hiddenElements` is hidden (hiding adds it to the set). Elements
are identified by their position in the document, which is stable here
because this sweep never removes nodes. -/
def applyHideSelector (m : Elem → Bool) (acc : List Elem × List Nat) :
    List Elem × List Nat :=
  let idxs := (List.range acc.1.length).filter (fun i => m (acc.1.getD i default))
  idxs.foldl (fun a i =>
      if a.2.contains i then a
      else (a.1.set i (hideElementDirectly (a.1.getD i default)), a.2 ++ [i]))
    acc

/-- The per-selector step of `restorePersistedData`: an invalid selector
makes `querySelectorAll` throw, which the per-selector `try/catch`
swallows, leaving the state untouched. -/
def restoreHiddenStep (matchQ : String → Option (Elem → Bool))
    (acc : List Elem × List Nat) (sel : String) : List Elem × List Nat :=
  match matchQ sel with
  | none => acc
  | some m => applyHideSelector m acc

/-- `restorePersistedData` over the persisted hidden selectors: the
sweep starts with an empty `hiddenElements` set. -/
def restorePersistedData (matchQ : String → Option (Elem → Bool))
    (sels : List String) (doc : List Elem) : List Elem :=
  (sels.foldl (restoreHiddenStep matchQ) (doc, [])).1

/-- The per-rule step of `restoreRemovedElements`: replay
`removeElements(removal.selector)`, accumulate the count on success,
and swallow the error (keeping document, store and total) on failure. -/
def restoreRemovedStep (matchQ : String → Option (Elem → Bool)) (domain : String)
    (now : Nat) (acc : List Elem × P6.Store × Nat) (r : P6.Removal) :
    List Elem × P6.Store × Nat :=
  match removeElements matchQ acc.2.1 domain acc.1 r.selector now with
  | Except.ok (doc1, st1, cnt) => (doc1, st1, acc.2.2 + cnt)
  | Except.error _ => acc

/-- `restoreRemovedElements` (`part_002` lines 373-402): replay every
persisted removal rule in order, per-rule `try/catch`. -/
def restoreRemovedElements (matchQ : String → Option (Elem → Bool))
    (rules : List P6.Removal) (st : P6.Store) (domain : String)
    (doc : List Elem) (now : Nat) : List Elem × P6.Store × Nat :=
  rules.foldl (restoreRemovedStep matchQ domain now) (doc, st, 0)

/-- Claim C8: a failing rule anywhere in either Bootstrapping sweep is
caught per-rule and contributes nothing — the sweep over the list with
the failing rule removed produces the same final state, so every
remaining rule is still applied and no error aborts the sweep. -/
theorem claim_C8_theorem :
    (∀ (matchQ : String → Option (Elem → Bool)) (sels1 sels2 : List String)
        (bad : String) (doc : List Elem),
      matchQ bad = none →
      restorePersistedData matchQ (sels1 ++ bad :: sels2) doc
        = restorePersistedData matchQ (sels1 ++ sels2) doc) ∧
    (∀ (matchQ : String → Option (Elem → Bool)) (rules1 rules2 : List P6.Removal)
        (bad : P6.Removal) (st : P6.Store) (domain : String) (doc : List Elem)
        (now : Nat),
      (∀ (st2 : P6.Store) (doc2 : List Elem),
        ∃ msg, removeElements matchQ st2 domain doc2 bad.selector now
          = Except.error msg) →
      restoreRemovedElements matchQ (rules1 ++ bad :: rules2) st domain doc now
        = restoreRemovedElements matchQ (rules1 ++ rules2) st domain doc now) := by
  constructor
  · intro matchQ sels1 sels2 bad doc hbad
    unfold restorePersistedData
    rw [List.foldl_append, List.foldl_append, List.foldl_cons]
    have hstep : ∀ acc, restoreHiddenStep matchQ acc bad = acc := by
      intro acc
      unfold restoreHiddenStep
      rw [hbad]
    rw [hstep]
  · intro matchQ rules1 rules2 bad st domain doc now hbad
    unfold restoreRemovedElements
    rw [List.foldl_append, List.foldl_append, List.foldl_cons]
    have hstep : ∀ acc, restoreRemovedStep matchQ domain now acc bad = acc := by
      intro acc
      unfold restoreRemovedStep
      rcases hbad acc.2.1 acc.1 with ⟨msg, hmsg⟩
      rw [hmsg]
    rw [hstep]

/-- Witness for C8 at concrete inputs: a sweep over two good hidden
selectors with an invalid one between them, and a removal sweep with an
always-invalid complex rule between two good rules. -/
theorem claim_C8_witness :
    restorePersistedData (fun s => if s == "div[bad" then none else some (fun _ => true))
        ([".a"] ++ "div[bad" :: [".b"]) [elemX1]
      = restorePersistedData
          (fun s => if s == "div[bad" then none else some (fun _ => true))
          ([".a"] ++ [".b"]) [elemX1] ∧
    restoreRemovedElements (fun _ => none)
        ([⟨"#x", "id", 1, 0⟩] ++ ⟨"div[bad", "complex", 0, 0⟩ :: [⟨"#y", "id", 0, 0⟩])
        [] "example.com" [elemX1] 5
      = restoreRemovedElements (fun _ => none)
          ([⟨"#x", "id", 1, 0⟩] ++ [⟨"#y", "id", 0, 0⟩]) [] "example.com" [elemX1] 5 :=
  ⟨claim_C8_theorem.1 (fun s => if s == "div[bad" then none else some (fun _ => true))
      [".a"] [".b"] "div[bad" [elemX1] rfl,
   claim_C8_theorem.2 (fun _ => none) [⟨"#x", "id", 1, 0⟩] [⟨"#y", "id", 0, 0⟩]
      ⟨"div[bad", "complex", 0, 0⟩ [] "example.com" [elemX1] 5
      (fun st2 doc2 =>
        ⟨"Invalid CSS selector: " ++ jsTrim "div[bad",
         removeElements_invalid (fun _ => none) st2 "example.com" doc2 "div[bad" 5
           (by decide) (by decide) (by decide) rfl⟩)⟩


/-! `findBestElementToSelect` (`selector.js` lines 424-466): climbing
from a small or inline element to a meaningful container. Bounding-box
dimensions are modelled as rationals. -/

/-- The inline-level tags (line 437). -/
def inlineTags : List String := ["SPAN", "A", "STRONG", "EM", "B", "I", "CODE"]

/-- The major containers at which the climb stops (line 448). -/
def majorContainers : List String := ["BODY", "HTML", "MAIN", "HEADER", "FOOTER", "NAV"]

/-- The block-level tags an ancestor must have to be chosen (line 454). -/
def blockTags : List String := ["DIV", "SECTION", "ARTICLE", "ASIDE", "P", "LI", "UL", "OL"]

/-- The data `findBestElementToSelect` reads from a node: tag name and
`getBoundingClientRect` dimensions. -/
structure ElemInfo where
  tagName : String
  width : ℚ
  height : ℚ
deriving Repr, DecidableEq

/-- The `while (parent && depth < 3)` climb (lines 441-462): stop at
major containers, return the first ancestor that is strictly more than
1.5 times larger in width or height than the ORIGINAL rect and is a
block-level tag, else keep climbing. -/
def findBestLoop (w h : ℚ) : List ElemInfo → Nat → Option ElemInfo
  | [], _ => none
  | p :: rest, depth =>
    if depth ≥ 3 then none
    else if majorContainers.contains p.tagName then none
    else
      if p.width > w * 1.5 ∨ p.height > h * 1.5 then
        if blockTags.contains p.tagName then some p
        else findBestLoop w h rest (depth + 1)
      else findBestLoop w h rest (depth + 1)

/-- `findBestElementToSelect(element)` for an element node, with its
ancestor chain passed explicitly (nearest parent first). Small means
width < 50 or height < 20 (line 434). The non-element-node branch
(line 428) is outside this model. -/
def findBestElementToSelect (e : ElemInfo) (ancestors : List ElemInfo) : ElemInfo :=
  let isSmallElement := e.width < 50 ∨ e.height < 20
  let isInlineElement := inlineTags.contains e.tagName
  if isSmallElement ∨ isInlineElement then
    match findBestLoop e.width e.height ancestors 0 with
    | some p => p
    | none => e
  else e

/-- The amended claim's wording as a definition: on a small or inline
element, return the first of the at most 3 nearest ancestors — cut off
at the first major container — that is STRICTLY more than 1.5 times
larger in width or height and is block-level, defaulting to the element
itself; other elements are returned unchanged. -/
def findBestSpec (e : ElemInfo) (ancestors : List ElemInfo) : ElemInfo :=
  if (e.width < 50 ∨ e.height < 20) ∨ inlineTags.contains e.tagName then
    (((ancestors.take 3).takeWhile
        (fun p => !(majorContainers.contains p.tagName))).find?
        (fun p => (decide (p.width > e.width * 1.5) || decide (p.height > e.height * 1.5))
          && blockTags.contains p.tagName)).getD e
  else e

theorem takeWhile_cons_pos {α : Type} (q : α → Bool) (a : α) (l : List α)
    (h : q a = true) : (a :: l).takeWhile q = a :: l.takeWhile q := by
  simp [List.takeWhile_cons, h]

theorem takeWhile_cons_neg {α : Type} (q : α → Bool) (a : α) (l : List α)
    (h : q a = false) : (a :: l).takeWhile q = [] := by
  simp [List.takeWhile_cons, h]

theorem findBestLoop_eq (w h : ℚ) (anc : List ElemInfo) (d : Nat) :
    findBestLoop w h anc d
      = ((anc.take (3 - d)).takeWhile
          (fun p => !(majorContainers.contains p.tagName))).find?
          (fun p => (decide (p.width > w * 1.5) || decide (p.height > h * 1.5))
            && blockTags.contains p.tagName) := by
  induction anc generalizing d with
  | nil => simp [findBestLoop]
  | cons p rest ih =>
    by_cases hd : d ≥ 3
    · have h0 : 3 - d = 0 := by omega
      rw [h0, List.take_zero]
      simp only [findBestLoop, if_pos hd]
      rfl
    · have h3 : 3 - d = (3 - (d + 1)) + 1 := by omega
      rw [h3, List.take_succ_cons]
      simp only [findBestLoop, if_neg hd]
      by_cases hmaj : majorContainers.contains p.tagName = true
      · rw [if_pos hmaj,
          takeWhile_cons_neg (fun (q : ElemInfo) => !(majorContainers.contains q.tagName)) _ _
            (by simp only [hmaj]; rfl)]
        rfl
      · have hmajf : majorContainers.contains p.tagName = false :=
          Bool.eq_false_iff.mpr hmaj
        rw [if_neg hmaj,
          takeWhile_cons_pos (fun (q : ElemInfo) => !(majorContainers.contains q.tagName)) _ _
            (by simp only [hmajf]; rfl)]
        by_cases hsize : p.width > w * 1.5 ∨ p.height > h * 1.5
        · have hsb : (decide (p.width > w * 1.5) || decide (p.height > h * 1.5)) = true := by
            rcases hsize with hs | hs
            · simp [hs]
            · simp [hs]
          rw [if_pos hsize]
          by_cases hblock : blockTags.contains p.tagName = true
          · rw [if_pos hblock,
              find?_cons_pos (fun (q : ElemInfo) => (decide (q.width > w * 1.5)
                  || decide (q.height > h * 1.5)) && blockTags.contains q.tagName) _ _
                (by simp [hsb, List.elem_iff.mp hblock])]
          · have hblockf : blockTags.contains p.tagName = false :=
              Bool.eq_false_iff.mpr hblock
            rw [if_neg hblock,
              find?_cons_neg (fun (q : ElemInfo) => (decide (q.width > w * 1.5)
                  || decide (q.height > h * 1.5)) && blockTags.contains q.tagName) _ _
                (by simp [not_mem_of_contains_false hblockf])]
            exact ih (d + 1)
        · have hsb : (decide (p.width > w * 1.5) || decide (p.height > h * 1.5)) = false := by
            push_neg at hsize
            simp [not_lt.mpr hsize.1, not_lt.mpr hsize.2]
          rw [if_neg hsize,
            find?_cons_neg (fun (q : ElemInfo) => (decide (q.width > w * 1.5)
                || decide (q.height > h * 1.5)) && blockTags.contains q.tagName) _ _
              (by simp [hsb])]
          exact ih (d + 1)

/-- Claim C9 (amended): `findBestElementToSelect` equals the search
described by the claim with "at least 1.5 times larger" tightened to
"strictly more than 1.5 times larger": on a small
(width < 50 or height < 20) or inline element it returns the first
ancestor within 3 levels — stopping early at major containers — that is
strictly more than 1.5 times larger in width or height and is
block-level, else the original element; on other elements it returns
the element itself. -/
theorem claim_C9_amended (e : ElemInfo) (ancestors : List ElemInfo) :
    findBestElementToSelect e ancestors = findBestSpec e ancestors := by
  unfold findBestElementToSelect findBestSpec
  by_cases hc : (e.width < 50 ∨ e.height < 20) ∨ inlineTags.contains e.tagName = true
  · rw [if_pos hc, if_pos hc, findBestLoop_eq]
    cases ((ancestors.take (3 - 0)).takeWhile
        (fun p => !(majorContainers.contains p.tagName))).find?
        (fun p => (decide (p.width > e.width * 1.5) || decide (p.height > e.height * 1.5))
          && blockTags.contains p.tagName) with
    | none => rfl
    | some p => rfl
  · rw [if_neg hc, if_neg hc]

/-- Claim C9 (counterexample): at the exact 1.5 times boundary the
claim and the code part ways. A SPAN of width 100 with a DIV parent of
width exactly 150 satisfies every condition of the claim's "at least
1.5 times larger" ancestor, yet the code's strict `>` comparison
rejects it and returns the original element. -/
theorem claim_C9_counterexample :
    inlineTags.contains "SPAN" = true ∧
    ((150 : ℚ) ≥ (100 : ℚ) * 1.5) ∧
    blockTags.contains "DIV" = true ∧
    majorContainers.contains "DIV" = false ∧
    findBestElementToSelect ⟨"SPAN", 100, 100⟩ [⟨"DIV", 150, 100⟩]
      = ⟨"SPAN", 100, 100⟩ := by
  refine ⟨by decide, by norm_num, by decide, by decide, ?_⟩
  have hsize : ¬ (((⟨"DIV", 150, 100⟩ : ElemInfo).width > (100 : ℚ) * 1.5) ∨
      ((⟨"DIV", 150, 100⟩ : ElemInfo).height > (100 : ℚ) * 1.5)) := by
    norm_num
  unfold findBestElementToSelect
  rw [if_pos (by right; decide)]
  simp only [findBestLoop]
  rw [if_neg (by norm_num), if_neg (by decide), if_neg hsize]
